import Mathlib

set_option linter.unusedVariables false

/-!
Verification of the dynamic-table CRUD service (FastAPI + DuckDB / Snowflake).

This file shallowly embeds the Python source of the repository:

* `src/app/db.py`            — the embedded-engine (DuckDB) `DBManager`
* `src/app/db_snowflake.py`  — the warehouse-engine (Snowflake) `DBManager`
* `src/app/routes.py`        — the dynamic table router
* `src/app/table_config.py`  — the static per-table config
* `src/app/health.py`        — the readiness probe

Rows are modelled as Python dicts: ordered association lists from column
name to value.  The SQL engine is modelled per its documented interface
(the spec declares engine internals opaque, trusted dependencies): a table
is a column list (schema) plus a list of rows; `INSERT` appends a row whose
unlisted columns are NULL, `UPDATE ... WHERE id = ?` rewrites the matching
rows, `DELETE ... WHERE id = ?` removes them, and `changes()` reports the
affected-row count.  Row ordering produced by `ORDER BY` is not modelled;
every theorem whose conclusion could depend on which of several rows is
returned carries a uniqueness hypothesis making the order irrelevant.
The engine may convert a bound value on storage (e.g. an int bound to a
TEXT column); this is modelled by an explicit conversion parameter `conv`,
instantiated with the identity (`storeId`) where conversion is irrelevant.
-/

/-- A SQL / JSON value as it appears in a row dict: NULL, boolean, integer
or string.  (Floats and nested objects play no role in any claim.) -/
inductive Value where
  | vnone
  | vbool (b : Bool)
  | vint (n : Int)
  | vstr (s : String)
deriving DecidableEq, Repr

/-- A record ("item"): a Python dict from column name to value, in
insertion order. -/
abbrev Row := List (String × Value)

/-- `d[k]` for a Python dict: the value at the first entry whose key is
`k`, if any. -/
def dictLookup (k : String) : Row → Option Value
  | [] => none
  | p :: rest => if p.1 = k then some p.2 else dictLookup k rest

/-- `k in d` for a Python dict. -/
def dictHasKey (k : String) (d : Row) : Bool :=
  d.any (fun p => p.1 == k)

/-- `d[k] = v` for a Python dict: replace in place when the key exists,
append otherwise. -/
def setKey (d : Row) (k : String) (v : Value) : Row :=
  if dictHasKey k d then d.map (fun p => if p.1 = k then (k, v) else p)
  else d ++ [(k, v)]

/-- `d.update(upd)` for Python dicts. -/
def dictUpdate (d upd : Row) : Row :=
  upd.foldl (fun acc p => setKey acc p.1 p.2) d

/-- A database table: its column list and its rows. -/
structure Table where
  schema : List String
  rows : List Row
deriving DecidableEq, Repr

/-- State of the embedded engine: the `items_seq` sequence (next value to
be handed out; `CREATE SEQUENCE ... START 1`) and the addressed table. -/
structure DBState where
  seq : Nat
  table : Table
deriving DecidableEq, Repr

/-- Does the SQL predicate `id = ?` (bound to `item_id`) hold of a row? -/
def rowHasId (item_id : Int) (r : Row) : Bool :=
  dictLookup "id" r == some (Value.vint item_id)

/-- The integer `id` of a row, when it has one. -/
def rowIdInt (r : Row) : Option Int :=
  match dictLookup "id" r with
  | some (Value.vint n) => some n
  | _ => none

/-- The identity storage conversion: the engine stores bound values
unchanged. -/
def storeId : String → Value → Value := fun _ v => v

namespace DB

/-- The row stored by `INSERT INTO t (cols) VALUES (vals)`: every schema
column, with the bound (possibly converted) value for listed columns and
NULL for the rest. -/
def mkStoredRow (conv : String → Value → Value) (schema : List String)
    (cols : List String) (vals : List Value) : Row :=
  schema.map (fun c =>
    (c, match dictLookup c (cols.zip vals) with
        | some v => conv c v
        | none => Value.vnone))

/-- `INSERT INTO t (cols) VALUES (vals)`: fails on a value-count mismatch,
a duplicate column, or a column outside the schema; otherwise appends the
stored row. -/
def sqlInsert (conv : String → Value → Value) (t : Table)
    (cols : List String) (vals : List Value) : Except String Table :=
  if cols.length ≠ vals.length then .error "Binder Error: value count mismatch"
  else if ¬ cols.Nodup then .error "Binder Error: duplicate column name in INSERT"
  else if ¬ (∀ c ∈ cols, c ∈ t.schema) then .error "Binder Error: column not found"
  else .ok { t with rows := t.rows ++ [mkStoredRow conv t.schema cols vals] }

/-- The effect of the SET clause on one row: each assignment `k = ?` in
order, the engine possibly converting the bound value on storage. -/
def applySets (conv : String → Value → Value) (sets : Row) (r : Row) : Row :=
  sets.foldl (fun acc p => setKey acc p.1 (conv p.1 p.2)) r

/-- `UPDATE t SET k1 = ?, ... WHERE id = ?` followed by `SELECT changes()`:
returns the new table and the number of affected rows.  An empty SET
clause is a SQL parse error; an unknown or repeated SET column is a binder
error. -/
def stmtUpdate (conv : String → Value → Value) (t : Table)
    (sets : Row) (item_id : Int) : Except String (Table × Nat) :=
  if sets.isEmpty then .error "Parser Error: empty SET clause"
  else if ¬ (sets.map Prod.fst).Nodup then .error "Binder Error: duplicate SET column"
  else if ¬ (∀ p ∈ sets, p.1 ∈ t.schema) then .error "Binder Error: column not found"
  else
    .ok ({ t with
            rows := t.rows.map (fun r =>
              if rowHasId item_id r then applySets conv sets r else r) },
         (t.rows.filter (rowHasId item_id)).length)

/-- `DELETE FROM t WHERE id = ?` followed by `SELECT changes()`. -/
def stmtDelete (t : Table) (item_id : Int) : Table × Nat :=
  ({ t with rows := t.rows.filter (fun r => ! rowHasId item_id r) },
   (t.rows.filter (rowHasId item_id)).length)

/-- `DBManager.__init__` (db.py): fresh sequence starting at 1 and the
(initially empty) table.  The schema is the table's column list — for the
default `items` table it is `itemsSchema` below. -/
def initState (schema : List String) : DBState :=
  ⟨1, ⟨schema, []⟩⟩

/-- Columns of the default `items` table created by the bootstrap DDL. -/
def itemsSchema : List String := ["id", "name", "value", "number"]

/-- `DBManager._fetch_item_sync` (db.py lines 246-276), as called by the
router (`columns=None`): `SELECT * FROM t WHERE id = ? ORDER BY ...` then
`fetchone()`, i.e. some row matching the id, or `None`. -/
def fetch_item_sync (st : DBState) (item_id : Int) : Option Row :=
  (st.table.rows.filter (rowHasId item_id)).head?

/-- `DBManager._fetch_all_items_with_where_sync` (db.py lines 101-131), as
called by the router (`columns=None`): the WHERE clause is appended only
when the `where` string is non-empty.  `pred` gives the engine's semantics
of a raw WHERE string as a row predicate. -/
def fetch_all_items_with_where_sync (st : DBState) (w : String)
    (pred : String → Row → Bool) : List Row :=
  if w ≠ "" then st.table.rows.filter (pred w) else st.table.rows

/-- `DBManager._fetch_all_items_sync` (db.py lines 144-171), as called by
the router (`columns=None`). -/
def fetch_all_items_sync (st : DBState) : List Row :=
  st.table.rows

/-- The body of `DBManager._create_item_sync` (db.py lines 294-327) after
the `SELECT nextval('items_seq')` fetch, with the fetched sequence row
given explicitly: `None` raises the RuntimeError, otherwise the item id is
`int(seq_row[0])`, the field set is inserted with the id prepended, and
the returned record is `{"id": item_id}` updated with the fields. -/
def create_item_seq (conv : String → Value → Value) (seqRow : Option Int)
    (t : Table) (fields : Row) : Except String (Row × Table) :=
  match seqRow with
  | none => .error "Failed to generate next item id from sequence."
  | some item_id =>
    match sqlInsert conv t ("id" :: fields.map Prod.fst)
        (Value.vint item_id :: fields.map Prod.snd) with
    | .error e => .error e
    | .ok t' => .ok (dictUpdate [("id", Value.vint item_id)] fields, t')

/-- `DBManager._create_item_sync` (db.py lines 294-327): `nextval` yields
the sequence's current value and advances it (also when the insert later
fails). -/
def create_item_sync (conv : String → Value → Value) (st : DBState)
    (fields : Row) : Except String Row × DBState :=
  match create_item_seq conv (some (st.seq : Int)) st.table fields with
  | .error e => (.error e, ⟨st.seq + 1, st.table⟩)
  | .ok (r, t') => (.ok r, ⟨st.seq + 1, t'⟩)

/-- `DBManager._update_item_sync` (db.py lines 344-358): run the UPDATE,
read `changes()`; zero affected rows yields the `None` sentinel, otherwise
the record `{"id": item_id}` updated with the fields. -/
def update_item_sync (conv : String → Value → Value) (st : DBState)
    (item_id : Int) (fields : Row) : Except String (Option Row) × DBState :=
  match stmtUpdate conv st.table fields item_id with
  | .error e => (.error e, st)
  | .ok (t', changed) =>
    if changed = 0 then (.ok none, { st with table := t' })
    else (.ok (some (dictUpdate [("id", Value.vint item_id)] fields)),
          { st with table := t' })

/-- `DBManager._delete_item_sync` (db.py lines 377-387): run the DELETE,
read `changes()`, return whether any row was removed. -/
def delete_item_sync (st : DBState) (item_id : Int) : Bool × DBState :=
  ((stmtDelete st.table item_id).2 > 0,
   { st with table := (stmtDelete st.table item_id).1 })

/-- Outcome of one `SELECT 1` probe inside `check_connection`: the row
`(1,)` came back; a row came back but was falsy or not `1`; or the driver
raised a database error (`duckdb.Error`). -/
inductive ProbeOutcome where
  | success
  | failure
  | raised
deriving DecidableEq, Repr

/-- The loop of `DBManager.check_connection` (db.py lines 404-423) from
attempt number `attempt`: return `True` on the first successful probe,
swallow database errors, give up after `retries` attempts. -/
def check_connection_from (probe : Nat → ProbeOutcome) (retries attempt : Nat) :
    Bool :=
  if attempt < retries then
    match probe attempt with
    | .success => true
    | _ => check_connection_from probe retries (attempt + 1)
  else false
termination_by retries - attempt

/-- `DBManager.check_connection` (db.py lines 404-423) with the outcome of
each attempt's probe given by `probe`.  (The fixed `time.sleep(delay)`
between attempts has no observable effect on the returned value and is not
modelled.) -/
def check_connection (probe : Nat → ProbeOutcome) (retries : Nat) : Bool :=
  check_connection_from probe retries 0

end DB

namespace SF

/-- `DBManager._create_item_sync` (db_snowflake.py lines 338-366) after the
INSERT, with the `SELECT LAST_INSERT_ID()` fetch given explicitly: `none`
is a missing/falsy row, `some none` a row whose first column is NULL, and
`some (some n)` an integer id.  `item_id` is `None` unless an integer came
back, and the returned record is `{"id": item_id}` updated with the
fields — no error is ever raised here. -/
def create_item_sync (lastIdRow : Option (Option Int)) (fields : Row) : Row :=
  let item_id : Option Int :=
    match lastIdRow with
    | some (some n) => some n
    | _ => none
  dictUpdate
    [("id", match item_id with
            | some n => Value.vint n
            | none => Value.vnone)] fields

end SF

/-- `table_config` (table_config.py): the static per-table
`(order_by, where)` override. -/
def table_config (table_name : String) : Option (String × String) :=
  if table_name = "items" then some ("id", "")
  else if table_name = "products" then some ("product_id", "is_active = 1")
  else none

/-- `table_config.get(table_name, {}).get("order_by", order_by)` as used by
the router: the configured ordering column, or the query parameter for an
unconfigured table. -/
def cfgOrderBy (table_name : String) (order_by : String) : String :=
  match table_config table_name with
  | some c => c.1
  | none => order_by

/-- `table_config.get(table_name, {}).get("where", "")` as used by the
router. -/
def cfgWhere (table_name : String) : String :=
  match table_config table_name with
  | some c => c.2
  | none => ""

namespace Routes

/-- An exception live inside a route handler's `try` block: a raised
`fastapi.HTTPException` (which subclasses `Exception`), or any other
Python error bubbling up from the database layer. -/
inductive Exc where
  | httpExc (status : Nat) (detail : String)
  | pyErr (msg : String)
deriving DecidableEq, Repr

/-- Python `str(e)` for the two exception shapes (an `HTTPException`
prints as `"<status>: <detail>"`). -/
def excStr : Exc → String
  | .httpExc code d => toString code ++ ": " ++ d
  | .pyErr m => m

/-- An HTTP response from a route: the decorator's success status with a
body, or an error status with a detail string. -/
inductive Resp (α : Type) where
  | ok (status : Nat) (body : α)
  | err (status : Nat) (detail : String)
deriving DecidableEq, Repr

/-- The `try/except Exception` wrapper shared by every route in routes.py:
any exception `e` escaping the body — a raised 404 `HTTPException`
included — is converted to `HTTPException(500, {"error": str(e)})`. -/
def routeCatch (okStatus : Nat) : Except Exc α → Resp α
  | .ok a => .ok okStatus a
  | .error e => .err 500 (excStr e)

/-- The generator search `next((i for i in items if i["id"] == item_id),
None)` in `get_item`: a row without an `"id"` key raises `KeyError`
before the search can move past it. -/
def findById (item_id : Int) : List Row → Except Exc (Option Row)
  | [] => .ok none
  | i :: rest =>
    match dictLookup "id" i with
    | none => .error (.pyErr "KeyError: 'id'")
    | some v =>
      if v == Value.vint item_id then .ok (some i) else findById item_id rest

/-- Body of the `get_item` route (routes.py lines 74-87): with a non-empty
configured filter, fetch the filtered list and search it client-side for
the id; otherwise fetch directly by id.  An absent item raises
`HTTPException(404, "Item not found")` — inside the `try` block. -/
def get_item_body (pred : String → Row → Bool) (st : DBState)
    (table_name : String) (item_id : Int) (order_by : String) :
    Except Exc Row :=
  let w := cfgWhere table_name
  let fetched : Except Exc (Option Row) :=
    if w ≠ "" then
      findById item_id (DB.fetch_all_items_with_where_sync st w pred)
    else .ok (DB.fetch_item_sync st item_id)
  match fetched with
  | .error e => .error e
  | .ok none => .error (.httpExc 404 "Item not found")
  | .ok (some it) => .ok it

/-- The `get_item` route (routes.py lines 66-90), catch included.  The
`order_by` query parameter only feeds the unmodelled ORDER BY clause. -/
def get_item (pred : String → Row → Bool) (st : DBState)
    (table_name : String) (item_id : Int) (order_by : String) : Resp Row :=
  routeCatch 200 (get_item_body pred st table_name item_id order_by)

/-- The `create_item` route (routes.py lines 93-111): the parsed JSON body
is passed through as the field set; status 201 on success. -/
def create_item (conv : String → Value → Value) (st : DBState)
    (data : Row) : Resp Row × DBState :=
  match DB.create_item_sync conv st data with
  | (.ok r, st1) => (.ok 201 r, st1)
  | (.error e, st1) => (.err 500 (excStr (.pyErr e)), st1)

/-- Body of the `update_item` route (routes.py lines 122-127): a `None`
from the manager raises `HTTPException(404)` inside the `try` block. -/
def update_item_body (conv : String → Value → Value) (st : DBState)
    (item_id : Int) (data : Row) : Except Exc Row × DBState :=
  match DB.update_item_sync conv st item_id data with
  | (.ok (some r), st1) => (.ok r, st1)
  | (.ok none, st1) => (.error (.httpExc 404 "Item not found"), st1)
  | (.error e, st1) => (.error (.pyErr e), st1)

/-- The `update_item` route (routes.py lines 114-130), catch included. -/
def update_item (conv : String → Value → Value) (st : DBState)
    (item_id : Int) (data : Row) : Resp Row × DBState :=
  match update_item_body conv st item_id data with
  | (r, st1) => (routeCatch 200 r, st1)

/-- Body of the `delete_item` route (routes.py lines 142-146): a `False`
from the manager raises `HTTPException(404)` inside the `try` block. -/
def delete_item_body (st : DBState) (item_id : Int) :
    Except Exc Unit × DBState :=
  match DB.delete_item_sync st item_id with
  | (true, st1) => (.ok (), st1)
  | (false, st1) => (.error (.httpExc 404 "Item not found"), st1)

/-- The `delete_item` route (routes.py lines 133-149), catch included;
the decorator's success status is 204. -/
def delete_item (st : DBState) (item_id : Int) : Resp Unit × DBState :=
  match delete_item_body st item_id with
  | (r, st1) => (routeCatch 204 r, st1)

end Routes

namespace Health

/-- The `/ready` endpoint (health.py lines 35-61).  `checkResult` is the
outcome of `asyncio.wait_for(db.run(db.check_connection, retries, delay),
timeout)`: `some b` when the check returned `b` within the timeout, `none`
when `asyncio.TimeoutError` was raised (treated as not ok).  Returns the
HTTP status and the `status` field of the JSON body. -/
def ready (checkResult : Option Bool) : Nat × String :=
  let ok := match checkResult with
    | none => false
    | some b => b
  if !ok then (503, "unavailable") else (200, "ready")

/-- The `/health` endpoint (health.py lines 30-32). -/
def health : Nat × String := (200, "ok")

end Health

namespace Py

/-- Parameters of `DBManager._fetch_item_sync` after `self` (db.py line
246): `table_name`, `item_id`, `columns`, `order_by` — four in all, the
last two optional. -/
def fetch_item_sync_params : List String :=
  ["table_name", "item_id", "columns", "order_by"]

/-- A positional argument of a Python call, tagged by the type it carries
at the `fetch_item_with_where` call site. -/
inductive PyArg where
  | strA (s : String)
  | intA (n : Int)
  | colsA (c : Option (List String))
deriving DecidableEq, Repr

/-- Python positional binding: giving more positional arguments than the
callee has parameters raises `TypeError`. -/
def bindPositional (params : List String) (args : List PyArg) :
    Except Routes.Exc (List (String × PyArg)) :=
  if args.length ≤ params.length then .ok (params.zip args)
  else .error (.pyErr "TypeError: too many positional arguments")

/-- `DBManager.fetch_item_with_where` (db.py lines 230-244): it forwards
`(table_name, item_id, columns, order_by, where)` — five positional
arguments — to `_fetch_item_sync`, which accepts at most four. -/
def fetch_item_with_where (st : DBState) (table_name : String)
    (item_id : Int) (columns : Option (List String)) (order_by : String)
    (w : String) : Except Routes.Exc (Option Row) :=
  match bindPositional fetch_item_sync_params
      [.strA table_name, .intA item_id, .colsA columns, .strA order_by,
       .strA w] with
  | .error e => .error e
  | .ok _ => .ok (DB.fetch_item_sync st item_id)

end Py

section DictLemmas

lemma dictHasKey_false_iff {k : String} {d : Row} :
    dictHasKey k d = false ↔ k ∉ d.map Prod.fst := by
  rw [← Bool.not_eq_true]
  simp [dictHasKey, List.any_eq_true, List.mem_map]

lemma setKey_of_not_mem {d : Row} {k : String} {v : Value}
    (h : k ∉ d.map Prod.fst) : setKey d k v = d ++ [(k, v)] := by
  rw [setKey, if_neg]
  simp [dictHasKey_false_iff.mpr h]

lemma dictUpdate_disjoint : ∀ {upd d : Row},
    (∀ k ∈ upd.map Prod.fst, k ∉ d.map Prod.fst) →
    (upd.map Prod.fst).Nodup → dictUpdate d upd = d ++ upd
  | [], d, _, _ => by simp [dictUpdate]
  | (k, v) :: rest, d, hdisj, hnd => by
    have hk : k ∉ d.map Prod.fst := hdisj k (by simp)
    have hnd2 : (k :: rest.map Prod.fst).Nodup := by simpa using hnd
    have hknotin : k ∉ rest.map Prod.fst := (List.nodup_cons.mp hnd2).1
    have hnd' : (rest.map Prod.fst).Nodup := (List.nodup_cons.mp hnd2).2
    have hstep : dictUpdate d ((k, v) :: rest) = dictUpdate (d ++ [(k, v)]) rest := by
      rw [dictUpdate, List.foldl_cons, setKey_of_not_mem hk]
      rfl
    have hdisj' : ∀ k' ∈ rest.map Prod.fst, k' ∉ (d ++ [(k, v)]).map Prod.fst := by
      intro k' hk'
      rw [List.map_append, List.mem_append]
      rintro (hkd | hkk)
      · exact hdisj k' (by simp [hk']) hkd
      · have hkeq : k' = k := by simpa using hkk
        exact hknotin (hkeq ▸ hk')
    rw [hstep, dictUpdate_disjoint hdisj' hnd']
    simp

end DictLemmas

section InsertLemmas

lemma sqlInsert_ok {conv : String → Value → Value} {t : Table}
    {cols : List String} {vals : List Value} {t' : Table}
    (h : DB.sqlInsert conv t cols vals = .ok t') :
    cols.Nodup ∧ (∀ c ∈ cols, c ∈ t.schema) ∧
    t' = ⟨t.schema, t.rows ++ [DB.mkStoredRow conv t.schema cols vals]⟩ := by
  unfold DB.sqlInsert at h
  by_cases h1 : cols.length ≠ vals.length
  · rw [if_pos h1] at h
    exact absurd h (by simp)
  · rw [if_neg h1] at h
    by_cases h2 : ¬ cols.Nodup
    · rw [if_pos h2] at h
      exact absurd h (by simp)
    · rw [if_neg h2] at h
      by_cases h3 : ¬ (∀ c ∈ cols, c ∈ t.schema)
      · rw [if_pos h3] at h
        exact absurd h (by simp)
      · rw [if_neg h3] at h
        push_neg at h2 h3
        refine ⟨h2, h3, ?_⟩
        cases h
        rfl

lemma create_ok_shape {conv : String → Value → Value} {st : DBState}
    {F : Row} {r : Row} {st1 : DBState}
    (h : DB.create_item_sync conv st F = (.ok r, st1)) :
    ("id" :: F.map Prod.fst).Nodup ∧
    (∀ c ∈ ("id" :: F.map Prod.fst), c ∈ st.table.schema) ∧
    r = ("id", Value.vint (st.seq : Int)) :: F ∧
    st1 = ⟨st.seq + 1,
      ⟨st.table.schema,
       st.table.rows ++ [DB.mkStoredRow conv st.table.schema
         ("id" :: F.map Prod.fst)
         (Value.vint (st.seq : Int) :: F.map Prod.snd)]⟩⟩ := by
  rw [DB.create_item_sync, DB.create_item_seq] at h
  cases hins : DB.sqlInsert conv st.table ("id" :: F.map Prod.fst)
      (Value.vint (st.seq : Int) :: F.map Prod.snd) with
  | error e =>
    rw [hins] at h
    simp at h
  | ok t' =>
    rw [hins] at h
    simp only [Prod.mk.injEq, Except.ok.injEq] at h
    obtain ⟨hnd, hsub, ht'⟩ := sqlInsert_ok hins
    have hid : "id" ∉ F.map Prod.fst := (List.nodup_cons.mp hnd).1
    have hrec : dictUpdate [("id", Value.vint (st.seq : Int))] F =
        ("id", Value.vint (st.seq : Int)) :: F := by
      rw [dictUpdate_disjoint]
      · rfl
      · intro k hk
        simp only [List.map_cons, List.map_nil, List.mem_singleton]
        intro hkid
        subst hkid
        exact hid hk
      · exact (List.nodup_cons.mp hnd).2
    refine ⟨hnd, hsub, ?_, ?_⟩
    · rw [← h.1, hrec]
    · rw [← h.2, ht']

end InsertLemmas

/-- C1: for a Get-one, Update or Delete on an absent id, the router
responds 500, not 404: the `HTTPException(404, "Item not found")` raised
inside the `try` block is itself an `Exception`, so the route's
`except Exception` catch converts it to `HTTPException(500,
{"error": "404: Item not found"})`.  This contradicts the claim (and the
routes' own docstrings, which promise 404).  Evaluated here on the empty
`items` table at id 1. -/
theorem c1_notfound_routes_respond_500 :
    Routes.get_item (fun _ _ => false) (DB.initState DB.itemsSchema)
        "items" 1 "id" = .err 500 "404: Item not found" ∧
    Routes.update_item storeId (DB.initState DB.itemsSchema) 1
        [("name", Value.vstr "x")]
      = (.err 500 "404: Item not found", DB.initState DB.itemsSchema) ∧
    Routes.delete_item (DB.initState DB.itemsSchema) 1
      = (.err 500 "404: Item not found", DB.initState DB.itemsSchema) := by
  refine ⟨rfl, ?_, rfl⟩
  decide

/-- C2: whenever the embedded-engine Create returns a record at all, that
record is exactly the supplied field set `F` with one additional key
`id` prepended (and `id` was not a key of `F`, since the insert would
otherwise have failed on a duplicate column). -/
theorem c2_create_returns_fields_plus_id (conv : String → Value → Value)
    (st : DBState) (F r : Row) (st1 : DBState)
    (h : DB.create_item_sync conv st F = (.ok r, st1)) :
    "id" ∉ F.map Prod.fst ∧
    ∃ n : Int, r = ("id", Value.vint n) :: F := by
  obtain ⟨hnd, _, hr, _⟩ := create_ok_shape h
  exact ⟨(List.nodup_cons.mp hnd).1, ⟨(st.seq : Int), hr⟩⟩

/-- Field set used by the C2 witness. -/
def c2F : Row := [("name", Value.vstr "a"), ("value", Value.vstr "b")]

/-- Record returned by the C2 witness create. -/
def c2R : Row :=
  [("id", Value.vint 1), ("name", Value.vstr "a"), ("value", Value.vstr "b")]

/-- Post-state of the C2 witness create. -/
def c2St : DBState :=
  ⟨2, ⟨DB.itemsSchema,
       [[("id", Value.vint 1), ("name", Value.vstr "a"),
         ("value", Value.vstr "b"), ("number", Value.vnone)]]⟩⟩

/-- Witness for C2: creating `{"name": "a", "value": "b"}` in the fresh
`items` table returns `{"id": 1, "name": "a", "value": "b"}`. -/
theorem c2_create_returns_fields_plus_id_witness :
    DB.create_item_sync storeId (DB.initState DB.itemsSchema) c2F
      = (.ok c2R, c2St) ∧
    ("id" ∉ c2F.map Prod.fst ∧
     ∃ n : Int, c2R = ("id", Value.vint n) :: c2F) :=
  ⟨rfl,
   c2_create_returns_fields_plus_id storeId (DB.initState DB.itemsSchema)
     c2F c2R c2St rfl⟩

lemma dictUpdate_key_cons {k : String} {v : Value} {F : Row}
    (hid : k ∉ F.map Prod.fst) (hnd : (F.map Prod.fst).Nodup) :
    dictUpdate [(k, v)] F = (k, v) :: F := by
  rw [dictUpdate_disjoint]
  · rfl
  · intro k' hk'
    simp only [List.map_cons, List.map_nil, List.mem_singleton]
    intro hkk
    subst hkk
    exact hid hk'
  · exact hnd

/-- C4 (counterexample): on the warehouse backend, when the
`SELECT LAST_INSERT_ID()` fetch yields no row, Create does not fail with a
data error — it returns the record `{"id": None, "name": "x"}`, whose `id`
is null. -/
theorem c4_counterexample :
    SF.create_item_sync none [("name", Value.vstr "x")]
      = [("id", Value.vnone), ("name", Value.vstr "x")] := rfl

/-- C4 (amended): the embedded engine fails with the data error when the
sequence row cannot be obtained, and any record it does return carries an
integer `id`; the warehouse engine, however, does not fail when the
last-inserted id cannot be obtained — it returns the record with `id`
set to None (and the integer id when one is obtained). -/
theorem c4_amended_id_acquisition :
    (∀ (conv : String → Value → Value) (t : Table) (F : Row),
       DB.create_item_seq conv none t F
         = .error "Failed to generate next item id from sequence.") ∧
    (∀ (conv : String → Value → Value) (st : DBState) (F r : Row)
       (st1 : DBState),
       DB.create_item_sync conv st F = (.ok r, st1) →
       ∃ n : Int, dictLookup "id" r = some (Value.vint n)) ∧
    (∀ (lastIdRow : Option (Option Int)) (F : Row),
       "id" ∉ F.map Prod.fst → (F.map Prod.fst).Nodup →
       (∀ n : Int, lastIdRow ≠ some (some n)) →
       SF.create_item_sync lastIdRow F = ("id", Value.vnone) :: F) ∧
    (∀ (n : Int) (F : Row),
       "id" ∉ F.map Prod.fst → (F.map Prod.fst).Nodup →
       SF.create_item_sync (some (some n)) F = ("id", Value.vint n) :: F) := by
  refine ⟨fun conv t F => rfl, ?_, ?_, ?_⟩
  · intro conv st F r st1 h
    obtain ⟨_, _, hr, _⟩ := create_ok_shape h
    refine ⟨(st.seq : Int), ?_⟩
    rw [hr]
    simp [dictLookup]
  · intro lastIdRow F hid hnd hnone
    match lastIdRow with
    | none => exact dictUpdate_key_cons hid hnd
    | some none => exact dictUpdate_key_cons hid hnd
    | some (some n) => exact absurd rfl (hnone n)
  · intro n F hid hnd
    exact dictUpdate_key_cons hid hnd

/-- Witness for C4's amended theorem: with no last-inserted-id row the
warehouse Create returns id None; with id row 7 it returns id 7. -/
theorem c4_amended_id_acquisition_witness :
    ("id" ∉ ([("name", Value.vstr "x")] : Row).map Prod.fst ∧
     (([("name", Value.vstr "x")] : Row).map Prod.fst).Nodup) ∧
    SF.create_item_sync none [("name", Value.vstr "x")]
      = ("id", Value.vnone) :: [("name", Value.vstr "x")] ∧
    SF.create_item_sync (some (some 7)) [("name", Value.vstr "x")]
      = ("id", Value.vint 7) :: [("name", Value.vstr "x")] :=
  ⟨⟨by decide, by decide⟩,
   c4_amended_id_acquisition.2.2.1 none [("name", Value.vstr "x")]
     (by decide) (by decide) (fun n h => Option.noConfusion h),
   c4_amended_id_acquisition.2.2.2 7 [("name", Value.vstr "x")]
     (by decide) (by decide)⟩

/-- C9: every invocation of the embedded-engine `fetch_item_with_where`
raises `TypeError`, whatever the arguments: it forwards its `where`
argument as a fifth positional argument to `_fetch_item_sync`, whose
signature has only four parameters after `self`, so no call returns a
record or the `None` sentinel. -/
theorem c9_fetch_item_with_where_type_error (st : DBState)
    (table_name : String) (item_id : Int) (columns : Option (List String))
    (order_by w : String) :
    Py.fetch_item_with_where st table_name item_id columns order_by w
      = .error (.pyErr "TypeError: too many positional arguments") := rfl

lemma check_from_true_iff (probe : Nat → DB.ProbeOutcome) (retries a : Nat) :
    DB.check_connection_from probe retries a = true ↔
      ∃ i, a ≤ i ∧ i < retries ∧ probe i = DB.ProbeOutcome.success := by
  rw [DB.check_connection_from]
  by_cases h : a < retries
  · rw [if_pos h]
    cases hp : probe a with
    | success =>
      simp only [true_iff]
      exact ⟨a, le_refl a, h, hp⟩
    | failure =>
      rw [check_from_true_iff probe retries (a + 1)]
      constructor
      · rintro ⟨i, hi0, hir, hps⟩
        exact ⟨i, by omega, hir, hps⟩
      · rintro ⟨i, hi0, hir, hps⟩
        refine ⟨i, ?_, hir, hps⟩
        rcases Nat.eq_or_lt_of_le hi0 with he | hlt
        · rw [← he] at hps
          rw [hp] at hps
          exact absurd hps (by simp)
        · omega
    | raised =>
      rw [check_from_true_iff probe retries (a + 1)]
      constructor
      · rintro ⟨i, hi0, hir, hps⟩
        exact ⟨i, by omega, hir, hps⟩
      · rintro ⟨i, hi0, hir, hps⟩
        refine ⟨i, ?_, hir, hps⟩
        rcases Nat.eq_or_lt_of_le hi0 with he | hlt
        · rw [← he] at hps
          rw [hp] at hps
          exact absurd hps (by simp)
        · omega
  · rw [if_neg h]
    simp only [Bool.false_eq_true, false_iff]
    rintro ⟨i, hi0, hir, _⟩
    omega
termination_by retries - a

/-- C5: readiness semantics.  The `/ready` endpoint answers 200
`{"status": "ready"}` exactly when the connectivity check returned true
within the timeout (a timeout counts as not ok), and 503
`{"status": "unavailable"}` otherwise; `check_connection` returns true
exactly when some probe among the first `retries` attempts succeeds (so it
returns false when every attempt fails or raises a swallowed database
error), and its outcome never depends on probes beyond attempt
`retries`. -/
theorem c5_readiness_semantics :
    (∀ checkResult : Option Bool,
       Health.ready checkResult = (200, "ready") ↔ checkResult = some true) ∧
    (∀ checkResult : Option Bool,
       Health.ready checkResult = (503, "unavailable") ↔
         checkResult ≠ some true) ∧
    (∀ (probe : Nat → DB.ProbeOutcome) (retries : Nat),
       DB.check_connection probe retries = true ↔
         ∃ i, i < retries ∧ probe i = DB.ProbeOutcome.success) ∧
    (∀ (probe probe' : Nat → DB.ProbeOutcome) (retries : Nat),
       (∀ i, i < retries → probe i = probe' i) →
       DB.check_connection probe retries
         = DB.check_connection probe' retries) := by
  have hiff : ∀ (probe : Nat → DB.ProbeOutcome) (retries : Nat),
      DB.check_connection probe retries = true ↔
        ∃ i, i < retries ∧ probe i = DB.ProbeOutcome.success := by
    intro probe retries
    rw [DB.check_connection, check_from_true_iff]
    constructor
    · rintro ⟨i, _, hir, hps⟩
      exact ⟨i, hir, hps⟩
    · rintro ⟨i, hir, hps⟩
      exact ⟨i, Nat.zero_le i, hir, hps⟩
  refine ⟨?_, ?_, hiff, ?_⟩
  · intro checkResult
    match checkResult with
    | none => decide
    | some true => decide
    | some false => decide
  · intro checkResult
    match checkResult with
    | none => decide
    | some true => decide
    | some false => decide
  · intro probe probe' retries h
    have hbb : ∀ b b' : Bool, (b = true ↔ b' = true) → b = b' := by decide
    apply hbb
    rw [hiff, hiff]
    constructor
    · rintro ⟨i, hir, hps⟩
      refine ⟨i, hir, ?_⟩
      rw [← h i hir]
      exact hps
    · rintro ⟨i, hir, hps⟩
      refine ⟨i, hir, ?_⟩
      rw [h i hir]
      exact hps

/-- Witness for C5: concrete readiness outcomes — ready within the
timeout, unavailable on timeout, true on the first successful probe, and
indifference to probes beyond the retry budget. -/
theorem c5_readiness_semantics_witness :
    Health.ready (some true) = (200, "ready") ∧
    Health.ready none = (503, "unavailable") ∧
    DB.check_connection (fun _ => DB.ProbeOutcome.success) 1 = true ∧
    DB.check_connection (fun _ => DB.ProbeOutcome.failure) 2
      = DB.check_connection
          (fun i => if i < 2 then DB.ProbeOutcome.failure
                    else DB.ProbeOutcome.success) 2 :=
  ⟨(c5_readiness_semantics.1 (some true)).mpr rfl,
   (c5_readiness_semantics.2.1 none).mpr (by decide),
   (c5_readiness_semantics.2.2.1 (fun _ => DB.ProbeOutcome.success) 1).mpr
     ⟨0, by decide, rfl⟩,
   c5_readiness_semantics.2.2.2 _ _ 2 (fun i hi => by simp [hi])⟩

/-- Row with id 1 used by the C6 counterexample. -/
def c6Row : Row :=
  [("id", Value.vint 1), ("name", Value.vstr "a"),
   ("value", Value.vnone), ("number", Value.vnone)]

/-- Pre-state of the C6 counterexample: one stored row with id 1. -/
def c6St : DBState := ⟨2, ⟨DB.itemsSchema, [c6Row]⟩⟩

/-- Post-state of the C6 counterexample: the row deleted. -/
def c6StD : DBState := ⟨2, ⟨DB.itemsSchema, []⟩⟩

/-- C6 (counterexample): the second Delete on the same id does return
false at the manager layer, but the route answers 500, not the claimed
404 — the raised `HTTPException(404)` is converted by the route's
`except Exception` catch. -/
theorem c6_counterexample :
    c6Row ∈ c6St.table.rows ∧ rowHasId 1 c6Row = true ∧
    Routes.delete_item c6St 1 = (.ok 204 (), c6StD) ∧
    Routes.delete_item c6StD 1 = (.err 500 "404: Item not found", c6StD) ∧
    (Routes.delete_item c6StD 1).1 ≠ .err 404 "Item not found" := by
  decide

lemma filter_not_filter_same {l : List Row} {p : Row → Bool} :
    (l.filter (fun r => ! p r)).filter p = [] := by
  induction l with
  | nil => rfl
  | cons a rest ih =>
    by_cases ha : p a
    · simp [List.filter_cons, ha, ih]
    · simp [List.filter_cons, ha, ih]

lemma filter_not_idem {l : List Row} {p : Row → Bool} :
    (l.filter (fun r => ! p r)).filter (fun r => ! p r)
      = l.filter (fun r => ! p r) := by
  induction l with
  | nil => rfl
  | cons a rest ih =>
    by_cases ha : p a
    · simp [List.filter_cons, ha, ih]
    · simp [List.filter_cons, ha, ih]

/-- C6 (amended): Delete is idempotent in effect but not in return value —
on a state holding a row with id `k`, the first Delete removes exactly the
id-`k` rows and returns true, and the route answers 204; a repeated Delete
leaves the state unchanged and returns false, but the route then answers
500 (its raised 404 is converted by the router's catch-all), not 404. -/
theorem c6_amended_delete_idempotent (st : DBState) (k : Int)
    (hex : st.table.rows.filter (rowHasId k) ≠ []) :
    DB.delete_item_sync st k
      = (true,
         ⟨st.seq, ⟨st.table.schema,
           st.table.rows.filter (fun r => ! rowHasId k r)⟩⟩) ∧
    DB.delete_item_sync (DB.delete_item_sync st k).2 k
      = (false, (DB.delete_item_sync st k).2) ∧
    Routes.delete_item st k = (.ok 204 (), (DB.delete_item_sync st k).2) ∧
    Routes.delete_item (DB.delete_item_sync st k).2 k
      = (.err 500 "404: Item not found", (DB.delete_item_sync st k).2) := by
  have hpos : 0 < (st.table.rows.filter (rowHasId k)).length :=
    List.length_pos.mpr hex
  have h1 : DB.delete_item_sync st k
      = (true,
         ⟨st.seq, ⟨st.table.schema,
           st.table.rows.filter (fun r => ! rowHasId k r)⟩⟩) := by
    rw [DB.delete_item_sync, DB.stmtDelete]
    simp [hpos]
  have h2 : DB.delete_item_sync (DB.delete_item_sync st k).2 k
      = (false, (DB.delete_item_sync st k).2) := by
    rw [h1]
    rw [DB.delete_item_sync, DB.stmtDelete]
    simp [filter_not_filter_same, filter_not_idem]
  refine ⟨h1, h2, ?_, ?_⟩
  · rw [Routes.delete_item, Routes.delete_item_body, h1]
    rfl
  · rw [Routes.delete_item, Routes.delete_item_body, h2]
    rfl

/-- Witness for C6's amended theorem: the concrete two-delete run on a
one-row `items` table. -/
theorem c6_amended_delete_idempotent_witness :
    (c6St.table.rows.filter (rowHasId 1) ≠ []) ∧
    (DB.delete_item_sync c6St 1
      = (true,
         ⟨c6St.seq, ⟨c6St.table.schema,
           c6St.table.rows.filter (fun r => ! rowHasId 1 r)⟩⟩) ∧
     DB.delete_item_sync (DB.delete_item_sync c6St 1).2 1
      = (false, (DB.delete_item_sync c6St 1).2) ∧
     Routes.delete_item c6St 1 = (.ok 204 (), (DB.delete_item_sync c6St 1).2) ∧
     Routes.delete_item (DB.delete_item_sync c6St 1).2 1
      = (.err 500 "404: Item not found", (DB.delete_item_sync c6St 1).2)) :=
  ⟨by decide, c6_amended_delete_idempotent c6St 1 (by decide)⟩

section LookupLemmas

lemma dictHasKey_true_iff {k : String} {d : Row} :
    dictHasKey k d = true ↔ k ∈ d.map Prod.fst := by
  simp [dictHasKey, List.any_eq_true, List.mem_map]

lemma dictLookup_append {k : String} {d d' : Row} :
    dictLookup k (d ++ d')
      = match dictLookup k d with
        | some v => some v
        | none => dictLookup k d' := by
  induction d with
  | nil => rfl
  | cons p rest ih =>
    by_cases hp : p.1 = k
    · simp [dictLookup, hp]
    · simp [dictLookup, hp, ih]

lemma dictLookup_replaceAll_self {d : Row} {k : String} {v : Value} :
    dictLookup k (d.map (fun p => if p.1 = k then (k, v) else p))
      = (dictLookup k d).map (fun _ => v) := by
  induction d with
  | nil => rfl
  | cons p rest ih =>
    by_cases hp : p.1 = k
    · simp [dictLookup, hp]
    · simp [dictLookup, hp, ih]

lemma dictLookup_replaceAll_other {d : Row} {k k' : String} {v : Value}
    (hne : k' ≠ k) :
    dictLookup k' (d.map (fun p => if p.1 = k then (k, v) else p))
      = dictLookup k' d := by
  induction d with
  | nil => rfl
  | cons p rest ih =>
    by_cases hp : p.1 = k
    · simp [dictLookup, hp, Ne.symm hne, ih]
    · simp [dictLookup, hp, ih]

lemma dictLookup_isSome_iff {k : String} {d : Row} :
    (dictLookup k d).isSome = true ↔ k ∈ d.map Prod.fst := by
  induction d with
  | nil => simp [dictLookup]
  | cons p rest ih =>
    by_cases hp : p.1 = k
    · simp [dictLookup, hp]
    · simp [dictLookup, hp, ih, Ne.symm hp]

lemma dictLookup_setKey_self {d : Row} {k : String} {v : Value} :
    dictLookup k (setKey d k v) = some v := by
  rw [setKey]
  by_cases hk : dictHasKey k d
  · rw [if_pos hk, dictLookup_replaceAll_self]
    have hs : (dictLookup k d).isSome = true :=
      dictLookup_isSome_iff.mpr (dictHasKey_true_iff.mp hk)
    obtain ⟨w, hw⟩ := Option.isSome_iff_exists.mp hs
    rw [hw]
    rfl
  · rw [if_neg hk, dictLookup_append]
    have hnone : dictLookup k d = none := by
      rcases hs : dictLookup k d with _ | w
      · rfl
      · exact absurd (dictLookup_isSome_iff.mp (by rw [hs]; rfl))
          (fun hm => hk (dictHasKey_true_iff.mpr hm))
    rw [hnone]
    simp [dictLookup]

lemma dictLookup_setKey_other {d : Row} {k k' : String} {v : Value}
    (hne : k' ≠ k) :
    dictLookup k' (setKey d k v) = dictLookup k' d := by
  rw [setKey]
  by_cases hk : dictHasKey k d
  · rw [if_pos hk, dictLookup_replaceAll_other hne]
  · rw [if_neg hk, dictLookup_append]
    rcases hd : dictLookup k' d with _ | w
    · simp [dictLookup, Ne.symm hne]
    · rfl

lemma setKey_keys_of_mem {d : Row} {k : String} {v : Value}
    (h : k ∈ d.map Prod.fst) :
    (setKey d k v).map Prod.fst = d.map Prod.fst := by
  rw [setKey, if_pos (dictHasKey_true_iff.mpr h), List.map_map]
  apply List.map_congr_left
  intro p hp
  by_cases hpk : p.1 = k
  · simp [Function.comp, hpk]
  · simp [Function.comp, hpk]

lemma applySets_keys {conv : String → Value → Value} :
    ∀ {sets r : Row}, (∀ p ∈ sets, p.1 ∈ r.map Prod.fst) →
      (DB.applySets conv sets r).map Prod.fst = r.map Prod.fst
  | [], r, _ => rfl
  | p :: rest, r, h => by
    rw [DB.applySets, List.foldl_cons]
    show (DB.applySets conv rest (setKey r p.1 (conv p.1 p.2))).map Prod.fst
        = r.map Prod.fst
    have hk : p.1 ∈ r.map Prod.fst := h p (by simp)
    have hkeys := @setKey_keys_of_mem r p.1 (conv p.1 p.2) hk
    calc (DB.applySets conv rest (setKey r p.1 (conv p.1 p.2))).map Prod.fst
        = (setKey r p.1 (conv p.1 p.2)).map Prod.fst := by
          apply applySets_keys
          intro q hq
          rw [hkeys]
          exact h q (by simp [hq])
      _ = r.map Prod.fst := hkeys

lemma applySets_lookup_not_mem {conv : String → Value → Value} :
    ∀ {sets r : Row} {c : String}, c ∉ sets.map Prod.fst →
      dictLookup c (DB.applySets conv sets r) = dictLookup c r
  | [], r, c, _ => rfl
  | p :: rest, r, c, h => by
    rw [DB.applySets, List.foldl_cons]
    show dictLookup c (DB.applySets conv rest (setKey r p.1 (conv p.1 p.2)))
        = dictLookup c r
    rw [applySets_lookup_not_mem (fun hc => h (by simp [hc]))]
    exact dictLookup_setKey_other (fun he => h (by simp [he]))

lemma applySets_lookup_mem {conv : String → Value → Value} :
    ∀ {sets r : Row} {c : String} {v : Value},
      (sets.map Prod.fst).Nodup → (c, v) ∈ sets →
      dictLookup c (DB.applySets conv sets r) = some (conv c v)
  | [], _, _, _, _, hm => absurd hm (List.not_mem_nil _)
  | (pk, pv) :: rest, r, c, v, hnd, hm => by
    rw [DB.applySets, List.foldl_cons]
    show dictLookup c (DB.applySets conv rest (setKey r pk (conv pk pv)))
        = some (conv c v)
    have hnd2 : (pk :: rest.map Prod.fst).Nodup := by simpa using hnd
    rcases List.mem_cons.mp hm with he | ht
    · injection he with hc hv
      subst hc
      subst hv
      rw [applySets_lookup_not_mem (List.nodup_cons.mp hnd2).1,
        dictLookup_setKey_self]
    · exact applySets_lookup_mem
        (by simpa using (List.nodup_cons.mp hnd2).2) ht

lemma dictLookup_of_mem_nodup :
    ∀ {F : Row} {c : String} {v : Value},
      (F.map Prod.fst).Nodup → (c, v) ∈ F → dictLookup c F = some v
  | [], _, _, _, hm => absurd hm (List.not_mem_nil _)
  | (pk, pv) :: rest, c, v, hnd, hm => by
    have hnd2 : (pk :: rest.map Prod.fst).Nodup := by simpa using hnd
    rcases List.mem_cons.mp hm with he | ht
    · injection he with hc hv
      subst hc
      subst hv
      simp [dictLookup]
    · have hne : pk ≠ c := by
        intro hq
        subst hq
        exact (List.nodup_cons.mp hnd2).1
          (List.mem_map.mpr ⟨(pk, v), ht, rfl⟩)
      simp only [dictLookup]
      rw [if_neg hne]
      exact dictLookup_of_mem_nodup (List.nodup_cons.mp hnd2).2 ht

end LookupLemmas

lemma stmtUpdate_ok {conv : String → Value → Value} {t : Table} {sets : Row}
    {k : Int} (hne : sets ≠ []) (hnd : (sets.map Prod.fst).Nodup)
    (hsub : ∀ p ∈ sets, p.1 ∈ t.schema) :
    DB.stmtUpdate conv t sets k
      = .ok ({ t with rows := t.rows.map (fun r =>
                 if rowHasId k r then DB.applySets conv sets r else r) },
             (t.rows.filter (rowHasId k)).length) := by
  rw [DB.stmtUpdate, if_neg (by simp [List.isEmpty_iff, hne]),
    if_neg (not_not_intro hnd), if_neg (not_not_intro hsub)]

/-- C7: Update with a nonempty field set `F` over the table's columns, on
id `k`: when no row has id `k`, it performs no mutation at all and returns
the `None` not-found sentinel; when some row has id `k`, it returns the
synthesized updated record, and in the table it changes exactly the
columns named in `F` of exactly the id-`k` rows — every other column of
those rows, and every other row, is untouched. -/
theorem c7_update_frame (st : DBState) (k : Int) (F : Row)
    (res : Except String (Option Row)) (st' : DBState)
    (hne : F ≠ []) (hnd : (F.map Prod.fst).Nodup)
    (hsub : ∀ p ∈ F, p.1 ∈ st.table.schema)
    (hwf : ∀ r ∈ st.table.rows, r.map Prod.fst = st.table.schema)
    (h : DB.update_item_sync storeId st k F = (res, st')) :
    (st.table.rows.filter (rowHasId k) = [] →
       res = .ok none ∧ st' = st) ∧
    (st.table.rows.filter (rowHasId k) ≠ [] →
       res = .ok (some (dictUpdate [("id", Value.vint k)] F)) ∧
       st'.seq = st.seq ∧
       st'.table.schema = st.table.schema ∧
       st'.table.rows.length = st.table.rows.length ∧
       ∀ i (hi : i < st.table.rows.length) (hi2 : i < st'.table.rows.length),
         (rowHasId k st.table.rows[i] = false →
            st'.table.rows[i] = st.table.rows[i]) ∧
         (rowHasId k st.table.rows[i] = true →
            (st'.table.rows[i]).map Prod.fst
              = (st.table.rows[i]).map Prod.fst ∧
            (∀ c, c ∉ F.map Prod.fst →
               dictLookup c st'.table.rows[i]
                 = dictLookup c st.table.rows[i]) ∧
            (∀ c, c ∈ F.map Prod.fst →
               dictLookup c st'.table.rows[i] = dictLookup c F))) := by
  have hcomp : DB.update_item_sync storeId st k F
      = (if (st.table.rows.filter (rowHasId k)).length = 0
         then ((Except.ok none : Except String (Option Row)),
               (⟨st.seq, st.table.schema,
                 st.table.rows.map (fun r =>
                   if rowHasId k r then DB.applySets storeId F r else r)⟩ :
                 DBState))
         else (Except.ok (some (dictUpdate [("id", Value.vint k)] F)),
               (⟨st.seq, st.table.schema,
                 st.table.rows.map (fun r =>
                   if rowHasId k r then DB.applySets storeId F r else r)⟩ :
                 DBState))) := by
    rw [DB.update_item_sync, stmtUpdate_ok hne hnd hsub]
  by_cases hch : (st.table.rows.filter (rowHasId k)).length = 0
  · rw [if_pos hch] at hcomp
    rw [hcomp] at h
    have hres : res = .ok none := (congrArg Prod.fst h).symm
    have hst' : st' = (⟨st.seq, st.table.schema,
        st.table.rows.map (fun r =>
          if rowHasId k r then DB.applySets storeId F r else r)⟩ : DBState) :=
      (congrArg Prod.snd h).symm
    have hnil : st.table.rows.filter (rowHasId k) = [] :=
      List.length_eq_zero.mp hch
    have hnohit : ∀ r ∈ st.table.rows, ¬ rowHasId k r = true := by
      intro r hr
      exact List.filter_eq_nil_iff.mp hnil r hr
    have hmapid : st.table.rows.map (fun r =>
        if rowHasId k r then DB.applySets storeId F r else r)
          = st.table.rows := by
      have hcongr : ∀ r ∈ st.table.rows,
          (if rowHasId k r then DB.applySets storeId F r else r) = id r := by
        intro r hr
        simp [hnohit r hr]
      rw [List.map_congr_left hcongr, List.map_id]
    constructor
    · intro _
      refine ⟨hres, ?_⟩
      rw [hst', hmapid]
    · intro hcontra
      exact absurd hnil hcontra
  · rw [if_neg hch] at hcomp
    rw [hcomp] at h
    have hres : res = .ok (some (dictUpdate [("id", Value.vint k)] F)) :=
      (congrArg Prod.fst h).symm
    have hst' : st' = (⟨st.seq, st.table.schema,
        st.table.rows.map (fun r =>
          if rowHasId k r then DB.applySets storeId F r else r)⟩ : DBState) :=
      (congrArg Prod.snd h).symm
    constructor
    · intro hnil
      exact absurd (by rw [hnil]; rfl) hch
    · intro _
      subst hst'
      refine ⟨hres, rfl, rfl, by simp, ?_⟩
      intro i hi hi2
      have hget : ((⟨st.seq, st.table.schema,
          st.table.rows.map (fun r =>
            if rowHasId k r then DB.applySets storeId F r else r)⟩ :
            DBState)).table.rows[i]
          = if rowHasId k st.table.rows[i] then
              DB.applySets storeId F st.table.rows[i]
            else st.table.rows[i] := by
        simp
      constructor
      · intro hmiss
        rw [hget, if_neg (by simp [hmiss])]
      · intro hhit
        rw [hget, if_pos hhit]
        have hrowkeys : (st.table.rows[i]).map Prod.fst = st.table.schema :=
          hwf _ (List.getElem_mem hi)
        have hsub2 : ∀ p ∈ F, p.1 ∈ (st.table.rows[i]).map Prod.fst := by
          intro p hp
          rw [hrowkeys]
          exact hsub p hp
        refine ⟨applySets_keys hsub2, ?_, ?_⟩
        · intro c hc
          exact applySets_lookup_not_mem hc
        · intro c hc
          obtain ⟨p, hpF, hp1⟩ := List.mem_map.mp hc
          have hpc : (c, p.2) ∈ F := by
            rw [← hp1]
            exact hpF
          rw [applySets_lookup_mem hnd hpc,
            dictLookup_of_mem_nodup hnd hpc]
          rfl

/-- Two-column table with a single row of id 1, used by the C7
counterexample and witness. -/
def c7St : DBState :=
  ⟨2, ⟨["id", "name"], [[("id", Value.vint 1), ("name", Value.vstr "a")]]⟩⟩

/-- C7 (counterexample): with a row of id 1 present, Update with the
empty field set does neither of the two claimed things — it raises (the
generated `UPDATE t SET  WHERE id = ?` is invalid SQL), mutating nothing
and returning neither a record nor the `None` sentinel. -/
theorem c7_counterexample :
    [("id", Value.vint 1), ("name", Value.vstr "a")] ∈ c7St.table.rows ∧
    rowHasId 1 [("id", Value.vint 1), ("name", Value.vstr "a")] = true ∧
    DB.update_item_sync storeId c7St 1 []
      = (.error "Parser Error: empty SET clause", c7St) := by
  refine ⟨by decide, by decide, rfl⟩

/-- Field set of the C7 witness. -/
def c7WF : Row := [("name", Value.vstr "b")]

/-- Result of the C7 witness update. -/
def c7WRes : Except String (Option Row) :=
  .ok (some [("id", Value.vint 1), ("name", Value.vstr "b")])

/-- Post-state of the C7 witness update. -/
def c7WSt2 : DBState :=
  ⟨2, ⟨["id", "name"], [[("id", Value.vint 1), ("name", Value.vstr "b")]]⟩⟩

/-- Witness for C7: updating `{"name": "b"}` on id 1 rewrites exactly the
`name` column of exactly the one matching row. -/
theorem c7_update_frame_witness :
    (c7WF ≠ [] ∧ (c7WF.map Prod.fst).Nodup ∧
     (∀ p ∈ c7WF, p.1 ∈ c7St.table.schema) ∧
     (∀ r ∈ c7St.table.rows, r.map Prod.fst = c7St.table.schema) ∧
     DB.update_item_sync storeId c7St 1 c7WF = (c7WRes, c7WSt2)) ∧
    ((c7St.table.rows.filter (rowHasId 1) = [] →
        c7WRes = .ok none ∧ c7WSt2 = c7St) ∧
     (c7St.table.rows.filter (rowHasId 1) ≠ [] →
        c7WRes = .ok (some (dictUpdate [("id", Value.vint 1)] c7WF)) ∧
        c7WSt2.seq = c7St.seq ∧
        c7WSt2.table.schema = c7St.table.schema ∧
        c7WSt2.table.rows.length = c7St.table.rows.length ∧
        ∀ i (hi : i < c7St.table.rows.length)
          (hi2 : i < c7WSt2.table.rows.length),
          (rowHasId 1 c7St.table.rows[i] = false →
             c7WSt2.table.rows[i] = c7St.table.rows[i]) ∧
          (rowHasId 1 c7St.table.rows[i] = true →
             (c7WSt2.table.rows[i]).map Prod.fst
               = (c7St.table.rows[i]).map Prod.fst ∧
             (∀ c, c ∉ c7WF.map Prod.fst →
                dictLookup c c7WSt2.table.rows[i]
                  = dictLookup c c7St.table.rows[i]) ∧
             (∀ c, c ∈ c7WF.map Prod.fst →
                dictLookup c c7WSt2.table.rows[i] = dictLookup c c7WF)))) :=
  ⟨⟨by decide, by decide, by decide, by decide, rfl⟩,
   c7_update_frame c7St 1 c7WF c7WRes c7WSt2 (by decide) (by decide)
     (by decide) (by decide) rfl⟩

lemma findById_ok {k : Int} :
    ∀ {l : List Row}, (∀ r ∈ l, dictLookup "id" r ≠ none) →
      Routes.findById k l = .ok (l.find? (rowHasId k))
  | [], _ => rfl
  | i :: rest, hall => by
    rw [Routes.findById]
    cases hid : dictLookup "id" i with
    | none => exact absurd hid (hall i (by simp))
    | some v =>
      show (if v == Value.vint k then Except.ok (some i)
            else Routes.findById k rest)
          = Except.ok (List.find? (rowHasId k) (i :: rest))
      have hr : rowHasId k i = (v == Value.vint k) := by
        rw [rowHasId, hid]
        rfl
      by_cases hv : v == Value.vint k
      · rw [if_pos hv, List.find?_cons_of_pos _ (by rw [hr]; exact hv)]
      · rw [if_neg hv, List.find?_cons_of_neg _ (by rw [hr]; exact hv)]
        exact findById_ok (fun r2 hr2 => hall r2 (by simp [hr2]))

/-- C8: the Get-one route's two code paths.  With a non-empty configured
filter it fetches the whole filtered list and linearly searches it
client-side for the requested id; with an empty (or absent) configured
filter it fetches directly by id; and on a row that satisfies the filter
(unique for its id, in a table whose rows all carry an `id` key) the two
paths yield the same record. -/
theorem c8_get_item_two_paths (pred : String → Row → Bool) (st : DBState)
    (tn : String) (k : Int) (ob : String) :
    (cfgWhere tn ≠ "" →
       Routes.get_item_body pred st tn k ob
         = match Routes.findById k
             (DB.fetch_all_items_with_where_sync st (cfgWhere tn) pred) with
           | .error e => .error e
           | .ok none => .error (.httpExc 404 "Item not found")
           | .ok (some it) => .ok it) ∧
    (cfgWhere tn = "" →
       Routes.get_item_body pred st tn k ob
         = match DB.fetch_item_sync st k with
           | none => .error (.httpExc 404 "Item not found")
           | some it => .ok it) ∧
    (∀ r ∈ st.table.rows, rowHasId k r = true →
       (∀ r2 ∈ st.table.rows, rowHasId k r2 = true → r2 = r) →
       (∀ r2 ∈ st.table.rows, dictLookup "id" r2 ≠ none) →
       pred (cfgWhere tn) r = true →
       Routes.findById k
           (DB.fetch_all_items_with_where_sync st (cfgWhere tn) pred)
         = .ok (some r) ∧
       DB.fetch_item_sync st k = some r) := by
  refine ⟨?_, ?_, ?_⟩
  · intro hw
    simp only [Routes.get_item_body]
    rw [if_pos hw]
  · intro hw
    simp only [Routes.get_item_body]
    rw [if_neg (by simp [hw])]
    cases hfi : DB.fetch_item_sync st k with
    | none => rfl
    | some it => rfl
  · intro r hr hhit huniq hall hpred
    have hsubL : ∀ x ∈ DB.fetch_all_items_with_where_sync st (cfgWhere tn) pred,
        x ∈ st.table.rows := by
      intro x hx
      rw [DB.fetch_all_items_with_where_sync] at hx
      by_cases hw : cfgWhere tn ≠ ""
      · rw [if_pos hw] at hx
        exact List.mem_of_mem_filter hx
      · rw [if_neg hw] at hx
        exact hx
    have hrL : r ∈ DB.fetch_all_items_with_where_sync st (cfgWhere tn) pred := by
      rw [DB.fetch_all_items_with_where_sync]
      by_cases hw : cfgWhere tn ≠ ""
      · rw [if_pos hw]
        exact List.mem_filter.mpr ⟨hr, hpred⟩
      · rw [if_neg hw]
        exact hr
    constructor
    · rw [findById_ok (fun x hx => hall x (hsubL x hx))]
      have hex : (List.find? (rowHasId k)
          (DB.fetch_all_items_with_where_sync st (cfgWhere tn) pred)).isSome
            = true :=
        List.find?_isSome.mpr ⟨r, hrL, hhit⟩
      obtain ⟨x, hx⟩ := Option.isSome_iff_exists.mp hex
      have hxmem := List.mem_of_find?_eq_some hx
      have hxhit := List.find?_some hx
      rw [hx, huniq x (hsubL x hxmem) hxhit]
    · rw [DB.fetch_item_sync]
      cases hfl : st.table.rows.filter (rowHasId k) with
      | nil =>
        exact absurd (hfl ▸ List.mem_filter.mpr ⟨hr, hhit⟩)
          (List.not_mem_nil r)
      | cons x xs =>
        have hxmem : x ∈ st.table.rows.filter (rowHasId k) := by
          rw [hfl]
          exact List.mem_cons_self x xs
        have hx2 := List.mem_filter.mp hxmem
        simp only [List.head?_cons]
        rw [huniq x hx2.1 hx2.2]

/-- One-row `products`-style table for the C8 witness. -/
def c8St : DBState :=
  ⟨2, ⟨["id", "product_id", "is_active"],
       [[("id", Value.vint 1), ("product_id", Value.vint 10),
         ("is_active", Value.vint 1)]]⟩⟩

/-- The engine semantics of the configured `products` filter string for
the C8 witness. -/
def c8Pred : String → Row → Bool :=
  fun _ r => dictLookup "is_active" r == some (Value.vint 1)

/-- The row addressed by the C8 witness. -/
def c8Row : Row :=
  [("id", Value.vint 1), ("product_id", Value.vint 10),
   ("is_active", Value.vint 1)]

/-- Witness for C8: on the one-row filtered `products` table, the
client-side linear search and the direct by-id fetch return the same
record. -/
theorem c8_get_item_two_paths_witness :
    (cfgWhere "products" = "is_active = 1" ∧
     c8Row ∈ c8St.table.rows ∧ rowHasId 1 c8Row = true ∧
     c8Pred (cfgWhere "products") c8Row = true) ∧
    (Routes.findById 1
        (DB.fetch_all_items_with_where_sync c8St (cfgWhere "products") c8Pred)
      = .ok (some c8Row) ∧
     DB.fetch_item_sync c8St 1 = some c8Row) :=
  ⟨⟨rfl, by decide, by decide, by decide⟩,
   (c8_get_item_two_paths c8Pred c8St "products" 1 "id").2.2 c8Row
     (by decide) (by decide) (by decide) (by decide) (by decide)⟩

section StoredRowLemmas

lemma zip_keys_vals (l : Row) : (l.map Prod.fst).zip (l.map Prod.snd) = l := by
  induction l with
  | nil => rfl
  | cons p rest ih => simp [ih]

lemma dictLookup_pairs_map {f : String → Value} :
    ∀ (l : List String) (c : String),
      dictLookup c (l.map (fun x => (x, f x)))
        = if c ∈ l then some (f c) else none := by
  intro l c
  induction l with
  | nil => simp [dictLookup]
  | cons a rest ih =>
    by_cases ha : a = c
    · subst ha
      simp [dictLookup]
    · simp [dictLookup, ha, Ne.symm ha, ih]

lemma dictLookup_mkStoredRow {conv : String → Value → Value}
    {schema cols : List String} {vals : List Value} {c : String} :
    dictLookup c (DB.mkStoredRow conv schema cols vals)
      = if c ∈ schema then
          some (match dictLookup c (cols.zip vals) with
                | some v => conv c v
                | none => Value.vnone)
        else none := by
  rw [DB.mkStoredRow]
  exact @dictLookup_pairs_map
    (fun x => match dictLookup x (cols.zip vals) with
              | some v => conv x v
              | none => Value.vnone) schema c

lemma mkStoredRow_keys {conv : String → Value → Value}
    {schema cols : List String} {vals : List Value} :
    (DB.mkStoredRow conv schema cols vals).map Prod.fst = schema := by
  rw [DB.mkStoredRow, List.map_map]
  exact List.map_id schema

lemma dictLookup_eq_none_of_not_mem {c : String} {F : Row}
    (h : c ∉ F.map Prod.fst) : dictLookup c F = none := by
  rcases hs : dictLookup c F with _ | v
  · rfl
  · exact absurd (dictLookup_isSome_iff.mp (by rw [hs]; rfl)) h

end StoredRowLemmas

/-- C10: the records returned by Create and Update are synthesized in
memory from the request's field set and the id, never read back from the
database.  For the embedded-engine Create: the record is exactly the field
set with the id prepended; the stored row echoes the engine's conversion
of each supplied value, carries every schema column, and its columns not
supplied in the request are NULL yet absent from the returned record.
The embedded-engine Update and the warehouse Create likewise return
`{"id": ...}` updated with the raw field set, whatever `conv` stored. -/
theorem c10_records_synthesized_in_memory :
    (∀ (conv : String → Value → Value) (st : DBState) (F r : Row)
       (st1 : DBState),
       DB.create_item_sync conv st F = (.ok r, st1) →
       r = ("id", Value.vint (st.seq : Int)) :: F ∧
       ∃ row, st1.table.rows = st.table.rows ++ [row] ∧
         row.map Prod.fst = st.table.schema ∧
         (∀ p ∈ F, dictLookup p.1 row = some (conv p.1 p.2)) ∧
         (∀ c ∈ st.table.schema, c ∉ ("id" :: F.map Prod.fst) →
            dictLookup c r = none ∧ dictLookup c row = some Value.vnone)) ∧
    (∀ (conv : String → Value → Value) (st : DBState) (k : Int) (F r : Row)
       (st1 : DBState),
       DB.update_item_sync conv st k F = (.ok (some r), st1) →
       r = dictUpdate [("id", Value.vint k)] F) ∧
    (∀ (lastIdRow : Option (Option Int)) (F : Row),
       SF.create_item_sync lastIdRow F
         = dictUpdate [("id", match lastIdRow with
                              | some (some n) => Value.vint n
                              | _ => Value.vnone)] F) := by
  refine ⟨?_, ?_, ?_⟩
  · intro conv st F r st1 h
    obtain ⟨hnd, hsub, hr, hst1⟩ := create_ok_shape h
    have hndF : (F.map Prod.fst).Nodup := (List.nodup_cons.mp hnd).2
    have hidF : "id" ∉ F.map Prod.fst := (List.nodup_cons.mp hnd).1
    have hzip : (("id" :: F.map Prod.fst).zip
        (Value.vint (st.seq : Int) :: F.map Prod.snd))
          = ("id", Value.vint (st.seq : Int)) :: F := by
      simp [zip_keys_vals]
    refine ⟨hr, DB.mkStoredRow conv st.table.schema
      ("id" :: F.map Prod.fst)
      (Value.vint (st.seq : Int) :: F.map Prod.snd), ?_, mkStoredRow_keys,
      ?_, ?_⟩
    · rw [hst1]
    · intro p hp
      have hpmem : p.1 ∈ st.table.schema := hsub p.1 (by simp [List.mem_map.mpr ⟨p, hp, rfl⟩])
      have hpne : p.1 ≠ "id" := by
        intro he
        exact hidF (he ▸ List.mem_map.mpr ⟨p, hp, rfl⟩)
      rw [dictLookup_mkStoredRow, if_pos hpmem, hzip]
      have hlk : dictLookup p.1 (("id", Value.vint (st.seq : Int)) :: F)
          = some p.2 := by
        simp only [dictLookup]
        rw [if_neg (by simpa using Ne.symm hpne)]
        exact dictLookup_of_mem_nodup hndF (by rw [show (p.1, p.2) = p from rfl]; exact hp)
      rw [hlk]
    · intro c hcs hcnot
      have hcne : c ≠ "id" := by
        intro he
        exact hcnot (by simp [he])
      have hcF : c ∉ F.map Prod.fst := by
        intro hm
        exact hcnot (by simp [hm])
      constructor
      · rw [hr]
        simp only [dictLookup]
        rw [if_neg (by simpa using Ne.symm hcne)]
        exact dictLookup_eq_none_of_not_mem hcF
      · rw [dictLookup_mkStoredRow, if_pos hcs, hzip]
        have hlk : dictLookup c (("id", Value.vint (st.seq : Int)) :: F)
            = none := by
          simp only [dictLookup]
          rw [if_neg (by simpa using Ne.symm hcne)]
          exact dictLookup_eq_none_of_not_mem hcF
        rw [hlk]
  · intro conv st k F r st1 h
    rw [DB.update_item_sync] at h
    cases hsu : DB.stmtUpdate conv st.table F k with
    | error e =>
      rw [hsu] at h
      simp at h
    | ok tc =>
      rw [hsu] at h
      obtain ⟨t', changed⟩ := tc
      by_cases hch : changed = 0
      · simp [hch] at h
      · simp only [hch, if_false, if_neg hch] at h
        have := (Prod.mk.injEq _ _ _ _).mp h
        have hrr := this.1
        injection hrr with hrr2
        injection hrr2 with hrr3
        exact hrr3.symm
  · intro lastIdRow F
    rcases lastIdRow with _ | inner
    · rfl
    · rcases inner with _ | n
      · rfl
      · rfl

/-- Field set used as the C10 witness request body, stored through a
conversion that rewrites every bound value. -/
def c10Conv : String → Value → Value := fun _ _ => Value.vstr "stored"

/-- Record returned by the C10 witness create: the raw field values, not
the converted stored ones. -/
def c10R : Row := [("id", Value.vint 1), ("name", Value.vstr "a")]

/-- Post-state of the C10 witness create: the stored row holds the
converted values and NULL for the unsupplied columns. -/
def c10St1 : DBState :=
  ⟨2, ⟨DB.itemsSchema,
       [[("id", Value.vstr "stored"), ("name", Value.vstr "stored"),
         ("value", Value.vnone), ("number", Value.vnone)]]⟩⟩

/-- Witness for C10: even with an engine that stores every value as the
string "stored", Create echoes the raw request values back and omits the
unsupplied columns. -/
theorem c10_records_synthesized_in_memory_witness :
    DB.create_item_sync c10Conv (DB.initState DB.itemsSchema)
        [("name", Value.vstr "a")] = (.ok c10R, c10St1) ∧
    (c10R = ("id", Value.vint ((DB.initState DB.itemsSchema).seq : Int))
        :: [("name", Value.vstr "a")] ∧
     ∃ row, c10St1.table.rows
         = (DB.initState DB.itemsSchema).table.rows ++ [row] ∧
       row.map Prod.fst = (DB.initState DB.itemsSchema).table.schema ∧
       (∀ p ∈ ([("name", Value.vstr "a")] : Row),
          dictLookup p.1 row = some (c10Conv p.1 p.2)) ∧
       (∀ c ∈ (DB.initState DB.itemsSchema).table.schema,
          c ∉ ("id" :: ([("name", Value.vstr "a")] : Row).map Prod.fst) →
          dictLookup c c10R = none ∧ dictLookup c row = some Value.vnone)) :=
  ⟨rfl,
   c10_records_synthesized_in_memory.1 c10Conv (DB.initState DB.itemsSchema)
     [("name", Value.vstr "a")] c10R c10St1 rfl⟩

/-- One Create call, kept only when it succeeds (the claim's "successful
Create"). -/
def createOk (conv : String → Value → Value) (st : DBState) (f : Row) :
    Option (Row × DBState) :=
  match DB.create_item_sync conv st f with
  | (.ok r, st1) => some (r, st1)
  | (.error _, _) => none

/-- A sequence of Create calls, all required to succeed: the list of
returned records and the final state. -/
def runCreatesOk (conv : String → Value → Value) :
    DBState → List Row → Option (List Row × DBState)
  | st, [] => some ([], st)
  | st, f :: rest =>
    (createOk conv st f).bind (fun p =>
      (runCreatesOk conv p.2 rest).bind (fun q =>
        some (p.1 :: q.1, q.2)))

lemma createOk_eq_some {conv : String → Value → Value} {st : DBState}
    {f r : Row} {st1 : DBState} :
    createOk conv st f = some (r, st1) ↔
      DB.create_item_sync conv st f = (.ok r, st1) := by
  rw [createOk]
  rcases hc : DB.create_item_sync conv st f with ⟨cres, st2⟩
  cases cres with
  | error e => simp
  | ok r2 => simp [Prod.ext_iff]

/-- The row the embedded engine stores for a Create of field set `F`
assigned id `n` (identity storage conversion). -/
def storedOf (schema : List String) (n : Nat) (F : Row) : Row :=
  DB.mkStoredRow storeId schema ("id" :: F.map Prod.fst)
    (Value.vint (n : Int) :: F.map Prod.snd)

lemma dictLookup_id_storedOf {schema : List String} {F : Row} {n : Nat}
    (hid : "id" ∈ schema) :
    dictLookup "id" (storedOf schema n F) = some (Value.vint (n : Int)) := by
  rw [storedOf, dictLookup_mkStoredRow, if_pos hid]
  have hz : (("id" :: F.map Prod.fst).zip
      (Value.vint (n : Int) :: F.map Prod.snd))
        = ("id", Value.vint (n : Int)) :: F := by
    simp [zip_keys_vals]
  rw [hz]
  simp [dictLookup, storeId]

lemma rowHasId_storedOf {schema : List String} {F : Row} {n : Nat} {m : Int}
    (hid : "id" ∈ schema) :
    rowHasId m (storedOf schema n F) = ((n : Int) == m) := by
  by_cases he : (n : Int) = m
  · simp [rowHasId, dictLookup_id_storedOf hid, he]
  · simp [rowHasId, dictLookup_id_storedOf hid, he]

lemma runCreatesOk_spec (fs : List Row) :
    ∀ (st : DBState) (recs : List Row) (stF : DBState),
      runCreatesOk storeId st fs = some (recs, stF) →
      stF.table.schema = st.table.schema ∧
      stF.seq = st.seq + fs.length ∧
      recs.length = fs.length ∧
      (∀ i (hi : i < fs.length),
         ("id" :: (fs[i]).map Prod.fst).Nodup ∧
         ∀ c ∈ ("id" :: (fs[i]).map Prod.fst), c ∈ st.table.schema) ∧
      (∀ i (hi : i < fs.length) (hi2 : i < recs.length),
         recs[i] = ("id", Value.vint ((st.seq + i : Nat) : Int)) :: fs[i]) ∧
      (∀ n : Int, n < (st.seq : Int) →
         stF.table.rows.filter (rowHasId n)
           = st.table.rows.filter (rowHasId n)) ∧
      (∀ i (hi : i < fs.length),
         stF.table.rows.filter (rowHasId ((st.seq + i : Nat) : Int))
           = st.table.rows.filter (rowHasId ((st.seq + i : Nat) : Int))
             ++ [storedOf st.table.schema (st.seq + i) fs[i]]) := by
  induction fs with
  | nil =>
    intro st recs stF h
    rw [runCreatesOk] at h
    injection h with h2
    have h3 : ([] : List Row) = recs ∧ st = stF := (Prod.mk.injEq _ _ _ _).mp h2
    obtain ⟨hrecs, hstF⟩ := h3
    subst hrecs
    subst hstF
    refine ⟨rfl, by simp, rfl, ?_, ?_, ?_, ?_⟩
    · intro i hi
      exact absurd hi (by simp)
    · intro i hi _
      exact absurd hi (by simp)
    · intro n _
      rfl
    · intro i hi
      exact absurd hi (by simp)
  | cons f rest ih =>
    intro st recs stF h
    rw [runCreatesOk] at h
    obtain ⟨⟨r, st1⟩, hp, hq⟩ := Option.bind_eq_some.mp h
    obtain ⟨⟨rs, stF2⟩, hq1, hq2⟩ := Option.bind_eq_some.mp hq
    injection hq2 with hq3
    have hq4 : (r :: rs, stF2) = (recs, stF) := hq3
    obtain ⟨hrecs, hstF⟩ := (Prod.mk.injEq _ _ _ _).mp hq4
    subst hrecs
    subst hstF
    have hcr := createOk_eq_some.mp hp
    obtain ⟨hnd, hsub, hr, hst1⟩ := create_ok_shape hcr
    subst hst1
    have hq1' : runCreatesOk storeId
        (⟨st.seq + 1, ⟨st.table.schema,
          st.table.rows ++ [storedOf st.table.schema st.seq f]⟩⟩ : DBState)
        rest = some (rs, stF2) := hq1
    obtain ⟨ihA, ihB, ihC, ihD, ihE, ihF, ihG⟩ :=
      ih _ rs stF2 hq1'
    have hidsc : "id" ∈ st.table.schema := hsub "id" (by simp)
    have hA : stF2.table.schema = st.table.schema := ihA
    have hB : stF2.seq = st.seq + 1 + rest.length := ihB
    have hC : rs.length = rest.length := ihC
    refine ⟨hA, ?_, ?_, ?_, ?_, ?_, ?_⟩
    · rw [hB, List.length_cons]
      omega
    · rw [List.length_cons, List.length_cons, hC]
    · intro i hi
      match i, hi with
      | 0, hi =>
        simp only [List.getElem_cons_zero]
        exact ⟨hnd, hsub⟩
      | j + 1, hi =>
        simp only [List.getElem_cons_succ]
        have hj : j < rest.length := by
          simp at hi
          omega
        exact ihD j hj
    · intro i hi hi2
      match i, hi, hi2 with
      | 0, hi, hi2 =>
        simp only [List.getElem_cons_zero]
        rw [hr]
        simp
      | j + 1, hi, hi2 =>
        simp only [List.getElem_cons_succ]
        have hj : j < rest.length := by
          simp at hi
          omega
        have hj2 : j < rs.length := by
          simp at hi2
          omega
        have hstep := ihE j hj hj2
        have hstep2 : rs[j]
            = ("id", Value.vint ((st.seq + 1 + j : Nat) : Int)) :: rest[j] :=
          hstep
        rw [show st.seq + (j + 1) = st.seq + 1 + j by omega]
        exact hstep2
    · intro n hn
      have hn1 : n < (((⟨st.seq + 1, ⟨st.table.schema,
          st.table.rows ++ [storedOf st.table.schema st.seq f]⟩⟩ :
            DBState).seq : Nat) : Int) := by
        have : n < ((st.seq + 1 : Nat) : Int) := by
          push_cast
          omega
        exact this
      have ihF2 : stF2.table.rows.filter (rowHasId n)
          = (st.table.rows
              ++ [storedOf st.table.schema st.seq f]).filter (rowHasId n) :=
        ihF n hn1
      rw [List.filter_append] at ihF2
      have hne : rowHasId n (storedOf st.table.schema st.seq f) = false := by
        rw [rowHasId_storedOf hidsc]
        have : (st.seq : Int) ≠ n := by omega
        simp [this]
      rw [ihF2]
      simp [List.filter_cons, hne]
    · intro i hi
      match i, hi with
      | 0, hi =>
        have hn1 : ((st.seq : Nat) : Int)
            < (((⟨st.seq + 1, ⟨st.table.schema,
                st.table.rows ++ [storedOf st.table.schema st.seq f]⟩⟩ :
                  DBState).seq : Nat) : Int) := by
          have : ((st.seq : Nat) : Int) < ((st.seq + 1 : Nat) : Int) := by
            push_cast
            omega
          exact this
        have ihF2 : stF2.table.rows.filter (rowHasId ((st.seq : Nat) : Int))
            = (st.table.rows ++ [storedOf st.table.schema st.seq f]).filter
                (rowHasId ((st.seq : Nat) : Int)) :=
          ihF _ hn1
        rw [List.filter_append] at ihF2
        have hyes : rowHasId ((st.seq : Nat) : Int)
            (storedOf st.table.schema st.seq f) = true := by
          rw [rowHasId_storedOf hidsc]
          simp
        simp only [List.getElem_cons_zero, Nat.add_zero]
        rw [ihF2]
        simp [List.filter_cons, hyes]
      | j + 1, hi =>
        have hj : j < rest.length := by
          simp at hi
          omega
        have ihG2 : stF2.table.rows.filter
            (rowHasId ((st.seq + 1 + j : Nat) : Int))
            = (st.table.rows ++ [storedOf st.table.schema st.seq f]).filter
                (rowHasId ((st.seq + 1 + j : Nat) : Int))
              ++ [storedOf st.table.schema (st.seq + 1 + j) rest[j]] :=
          ihG j hj
        rw [List.filter_append] at ihG2
        have hne : rowHasId ((st.seq + 1 + j : Nat) : Int)
            (storedOf st.table.schema st.seq f) = false := by
          rw [rowHasId_storedOf hidsc]
          simp only [beq_eq_false_iff_ne, ne_eq]
          push_cast
          omega
        simp only [List.getElem_cons_succ]
        rw [show st.seq + (j + 1) = st.seq + 1 + j by omega]
        rw [ihG2]
        have hne2 : rowHasId ((st.seq : Int) + 1 + (j : Int))
            (storedOf st.table.schema st.seq f) = false := by
          rw [rowHasId_storedOf hidsc]
          simp only [beq_eq_false_iff_ne, ne_eq]
          omega
        simp [List.filter_cons, hne, hne2]

lemma mkStoredRow_mem {conv : String → Value → Value}
    {schema cols : List String} {vals : List Value} {c : String}
    (hc : c ∈ schema) :
    (c, match dictLookup c (cols.zip vals) with
        | some v => conv c v
        | none => Value.vnone) ∈ DB.mkStoredRow conv schema cols vals := by
  rw [DB.mkStoredRow]
  exact List.mem_map.mpr ⟨c, hc, rfl⟩

/-- Final state of the C3 counterexample run: one stored row carrying the
NULL-filled unsupplied columns. -/
def c3StF : DBState :=
  ⟨2, ⟨DB.itemsSchema,
       [[("id", Value.vint 1), ("name", Value.vstr "a"),
         ("value", Value.vnone), ("number", Value.vnone)]]⟩⟩

/-- C3 (counterexample): a single successful Create of `{"name": "a"}` on
the fresh `items` table returns `{"id": 1, "name": "a"}`, but Get-one on
id 1 returns the full stored row with `value` and `number` as NULL — not
field-for-field the same data Create returned. -/
theorem c3_counterexample :
    runCreatesOk storeId (DB.initState DB.itemsSchema)
        [[("name", Value.vstr "a")]]
      = some ([[("id", Value.vint 1), ("name", Value.vstr "a")]], c3StF) ∧
    DB.fetch_item_sync c3StF 1
      = some [("id", Value.vint 1), ("name", Value.vstr "a"),
              ("value", Value.vnone), ("number", Value.vnone)] ∧
    DB.fetch_item_sync c3StF 1
      ≠ some [("id", Value.vint 1), ("name", Value.vstr "a")] := by
  refine ⟨rfl, rfl, by decide⟩

/-- C3 (amended): for every sequence of successful embedded-engine Create
calls from a fresh state, each returned record carries a strictly
positive integer `id` distinct from every other returned id, and Get-one
on that id returns the stored row, which agrees with the Create record on
every field the record contains, carries exactly the table's columns, and
reads back NULL in every column the Create record does not contain. -/
theorem c3_amended_ids_and_readback (schema : List String)
    (fs recs : List Row) (stF : DBState)
    (h : runCreatesOk storeId (DB.initState schema) fs = some (recs, stF)) :
    recs.length = fs.length ∧
    ∀ i (hi : i < recs.length),
      ∃ n : Int, rowIdInt recs[i] = some n ∧ 0 < n ∧
        (∀ j (hj : j < recs.length), j ≠ i → rowIdInt recs[j] ≠ some n) ∧
        ∃ row, DB.fetch_item_sync stF n = some row ∧
          (∀ p ∈ recs[i], p ∈ row) ∧
          row.map Prod.fst = schema ∧
          (∀ p ∈ row, p.1 ∉ (recs[i]).map Prod.fst → p.2 = Value.vnone) := by
  obtain ⟨hA, hB, hC, hD, hE, hF, hG⟩ := runCreatesOk_spec fs _ recs stF h
  refine ⟨hC, ?_⟩
  intro i hi
  have hifs : i < fs.length := by omega
  have hrec : recs[i] = ("id", Value.vint ((1 + i : Nat) : Int)) :: fs[i] :=
    hE i hifs hi
  obtain ⟨hDnd, hDsub0⟩ := hD i hifs
  have hDsub : ∀ c ∈ ("id" :: (fs[i]).map Prod.fst), c ∈ schema := hDsub0
  have hidsch : "id" ∈ schema := hDsub "id" (by simp)
  have hidnotf : "id" ∉ (fs[i]).map Prod.fst := (List.nodup_cons.mp hDnd).1
  have hndf : ((fs[i]).map Prod.fst).Nodup := (List.nodup_cons.mp hDnd).2
  have hGi : stF.table.rows.filter (rowHasId ((1 + i : Nat) : Int))
      = ([] : List Row).filter (rowHasId ((1 + i : Nat) : Int))
        ++ [storedOf schema (1 + i) fs[i]] := hG i hifs
  have hGi2 : stF.table.rows.filter (rowHasId ((1 + i : Nat) : Int))
      = [storedOf schema (1 + i) fs[i]] := by
    simpa using hGi
  have hzipi : (("id" :: (fs[i]).map Prod.fst).zip
      (Value.vint ((1 + i : Nat) : Int) :: (fs[i]).map Prod.snd))
        = ("id", Value.vint ((1 + i : Nat) : Int)) :: fs[i] := by
    simp [zip_keys_vals]
  refine ⟨((1 + i : Nat) : Int), ?_, ?_, ?_, ?_⟩
  · rw [hrec]
    simp [rowIdInt, dictLookup]
  · push_cast
    omega
  · intro j hj hne
    have hjfs : j < fs.length := by omega
    have hrecj : recs[j] = ("id", Value.vint ((1 + j : Nat) : Int)) :: fs[j] :=
      hE j hjfs hj
    have hneq : ((1 + j : Nat) : Int) ≠ ((1 + i : Nat) : Int) := by
      push_cast
      omega
    rw [hrecj]
    simp [rowIdInt, dictLookup, hneq]
    exact hne
  · refine ⟨storedOf schema (1 + i) fs[i], ?_, ?_, ?_, ?_⟩
    · rw [DB.fetch_item_sync, hGi2]
      rfl
    · intro p hp
      rw [hrec] at hp
      rcases List.mem_cons.mp hp with he | hf
      · rw [he]
        have hval : (match dictLookup "id"
            (("id" :: (fs[i]).map Prod.fst).zip
              (Value.vint ((1 + i : Nat) : Int) :: (fs[i]).map Prod.snd)) with
            | some v => storeId "id" v
            | none => Value.vnone) = Value.vint ((1 + i : Nat) : Int) := by
          rw [hzipi]
          simp [dictLookup, storeId]
        have hm := @mkStoredRow_mem storeId schema
          ("id" :: (fs[i]).map Prod.fst)
          (Value.vint ((1 + i : Nat) : Int) :: (fs[i]).map Prod.snd)
          "id" hidsch
        rw [hval] at hm
        exact hm
      · have hp1 : p.1 ∈ (fs[i]).map Prod.fst := List.mem_map.mpr ⟨p, hf, rfl⟩
        have hpne : p.1 ≠ "id" := by
          intro he2
          exact hidnotf (he2 ▸ hp1)
        have hval : (match dictLookup p.1
            (("id" :: (fs[i]).map Prod.fst).zip
              (Value.vint ((1 + i : Nat) : Int) :: (fs[i]).map Prod.snd)) with
            | some v => storeId p.1 v
            | none => Value.vnone) = p.2 := by
          rw [hzipi]
          simp only [dictLookup]
          rw [if_neg (by simpa using Ne.symm hpne)]
          rw [dictLookup_of_mem_nodup hndf
            (by rw [show (p.1, p.2) = p from rfl]; exact hf)]
          rfl
        have hm := @mkStoredRow_mem storeId schema
          ("id" :: (fs[i]).map Prod.fst)
          (Value.vint ((1 + i : Nat) : Int) :: (fs[i]).map Prod.snd)
          p.1 (hDsub p.1 (by simp [hp1]))
        rw [hval] at hm
        exact hm
    · exact mkStoredRow_keys
    · intro p hp hnotin
      rw [hrec] at hnotin
      obtain ⟨c, hcs, hpc⟩ := List.mem_map.mp hp
      have hc1 : p.1 = c := by
        rw [← hpc]
      have hcne : c ≠ "id" := by
        intro he2
        exact hnotin (by rw [hc1, he2]; simp)
      have hcnf : c ∉ (fs[i]).map Prod.fst := by
        intro hm2
        exact hnotin (by rw [hc1]; simp [hm2])
      have hval : (match dictLookup c
          (("id" :: (fs[i]).map Prod.fst).zip
            (Value.vint ((1 + i : Nat) : Int) :: (fs[i]).map Prod.snd)) with
          | some v => storeId c v
          | none => Value.vnone) = Value.vnone := by
        rw [hzipi]
        simp only [dictLookup]
        rw [if_neg (by simpa using Ne.symm hcne)]
        rw [dictLookup_eq_none_of_not_mem hcnf]
      rw [← hpc]
      simpa using hval

/-- Final state of the C3 witness run. -/
def c3WStF : DBState := ⟨2, ⟨["id"], [[("id", Value.vint 1)]]⟩⟩

/-- Witness for C3's amended theorem: a one-create run on a one-column
table, whose single record has the fresh positive id 1 and reads back as
the stored row. -/
theorem c3_amended_ids_and_readback_witness :
    runCreatesOk storeId (DB.initState ["id"]) [[]]
      = some ([[("id", Value.vint 1)]], c3WStF) ∧
    (([[("id", Value.vint 1)]] : List Row).length
        = ([[]] : List Row).length ∧
     ∀ i (hi : i < ([[("id", Value.vint 1)]] : List Row).length),
       ∃ n : Int,
         rowIdInt ([[("id", Value.vint 1)]] : List Row)[i] = some n ∧
         0 < n ∧
         (∀ j (hj : j < ([[("id", Value.vint 1)]] : List Row).length),
            j ≠ i →
            rowIdInt ([[("id", Value.vint 1)]] : List Row)[j] ≠ some n) ∧
         ∃ row, DB.fetch_item_sync c3WStF n = some row ∧
           (∀ p ∈ ([[("id", Value.vint 1)]] : List Row)[i], p ∈ row) ∧
           row.map Prod.fst = ["id"] ∧
           (∀ p ∈ row,
              p.1 ∉ (([[("id", Value.vint 1)]] : List Row)[i]).map Prod.fst →
              p.2 = Value.vnone)) :=
  ⟨rfl,
   c3_amended_ids_and_readback ["id"] [[]] [[("id", Value.vint 1)]]
     c3WStF rfl⟩
